import Mathlib

/-!
# Verification of the `menu_data` nutrient-resolution pipeline

Shallow embedding of the repository's Python sources:

* `menu_builder/parse_pdfs.py` — item parsing from PDF text,
* `menu_builder/build_sharepoint_payload.py` — item merging and table building,
* `menu_builder/usda_client.py` — the remote FoodData Central client,
* `fill_usda_nutrients.py` — the standalone spreadsheet-filling script.

The remote HTTP layer is modelled by explicit oracles (one response per
query/data-type pair); exceptions are modelled as explicit response
constructors, so every embedded function is total exactly where the Python
code is exception-free.  JSON numeric amounts are modelled as rationals
(`float()` on a JSON number is the identity at this granularity).  All
string code in the repository operates on ASCII text, and the Python
string primitives (`strip`, `lower`, `upper`, `split`, substring test,
`str.splitlines`) are embedded for that fragment.
-/

set_option autoImplicit false

namespace MenuData

/-! ## Python string primitives (ASCII fragment used by the repository) -/

/-- Python whitespace characters relevant to the repository's ASCII inputs
(`str.strip`, `str.split`, and the regex class `\s`). -/
def isPySpace (c : Char) : Bool :=
  c = ' ' || c = '\t' || c = '\n' || c = '\r' || c = '\x0b' || c = '\x0c'

/-- `str.strip()` on a character list. -/
def pyStripList (l : List Char) : List Char :=
  ((l.dropWhile isPySpace).reverse.dropWhile isPySpace).reverse

/-- Python `s.strip()`. -/
def pyStrip (s : String) : String := String.mk (pyStripList s.toList)

/-- Python `s.lower()` (ASCII). -/
def pyLower (s : String) : String := String.mk (s.toList.map Char.toLower)

/-- Python `s.upper()` (ASCII). -/
def pyUpper (s : String) : String := String.mk (s.toList.map Char.toUpper)

/-- Python `s.strip(chars)`: remove characters of the set from both ends. -/
def stripSet (cs : List Char) (l : List Char) : List Char :=
  ((l.dropWhile cs.contains).reverse.dropWhile cs.contains).reverse

/-- Worker for Python `s.split()` (split on whitespace runs, dropping empties). -/
def wordsGo : List Char → List Char → List (List Char)
  | acc, [] => if acc.isEmpty then [] else [acc.reverse]
  | acc, c :: rest =>
    if isPySpace c then
      if acc.isEmpty then wordsGo [] rest else acc.reverse :: wordsGo [] rest
    else wordsGo (c :: acc) rest

/-- Python `s.split()` with no separator argument. -/
def pyWords (s : String) : List String := (wordsGo [] s.toList).map String.mk

/-- Substring test, Python `needle in hay`. -/
def containsSub (needle : List Char) : List Char → Bool
  | [] => needle.isEmpty
  | c :: t => needle.isPrefixOf (c :: t) || containsSub needle t

/-- Worker for Python `str.splitlines` (the `\n`, `\r\n`, `\r` separators
that occur in the repository's inputs). -/
def splitLinesGo : List Char → List Char → List (List Char)
  | acc, [] => if acc.isEmpty then [] else [acc.reverse]
  | acc, '\r' :: '\n' :: rest => acc.reverse :: splitLinesGo [] rest
  | acc, '\n' :: rest => acc.reverse :: splitLinesGo [] rest
  | acc, '\r' :: rest => acc.reverse :: splitLinesGo [] rest
  | acc, c :: rest => splitLinesGo (c :: acc) rest

/-- Python `s.splitlines()`. -/
def splitLines (s : String) : List String := (splitLinesGo [] s.toList).map String.mk

/-! ## `menu_builder/parse_pdfs.py` -/

/-- `EXCLUDE_KEYWORDS` from `parse_pdfs.py`. -/
def EXCLUDE_KEYWORDS : List String :=
  ["BEVERAGE", "BEVERAGES", "CONDIMENT", "CONDIMENTS", "DESSERT",
   "SALAD BAR", "SANDWICH BAR", "BURGER BAR", "PASTA BAR", "WING BAR", "BURRITO BAR"]

/-- `_should_exclude`: the upper-cased line contains some exclusion keyword. -/
def shouldExclude (line : String) : Bool :=
  EXCLUDE_KEYWORDS.any (fun k => containsSub k.toList (pyUpper line).toList)

/-- Word characters of the regex class `\w` on ASCII input. -/
def isWordChar (c : Char) : Bool := c.isAlphanum || c = '_'

/-- A word boundary `\b` sits between a word character and the characters
`l` that follow: `l` is empty or starts with a non-word character. -/
def boundaryAt (l : List Char) : Bool :=
  match l with
  | [] => true
  | c :: _ => !isWordChar c

def isUpperAZ (c : Char) : Bool := 'A' ≤ c && c ≤ 'Z'

/-- Match the recipe-code regex `([RLY]\d{4,5}|[A-Z]\d{4,5})\b` at the head
of the list (the `[RLY]` branch is subsumed by `[A-Z]`; `\d{4,5}` is greedy,
so five digits are preferred when the trailing `\b` allows them).  Returns
the length of the match. -/
def matchCodeAt : List Char → Option Nat
  | c :: d1 :: d2 :: d3 :: d4 :: rest =>
    if isUpperAZ c && d1.isDigit && d2.isDigit && d3.isDigit && d4.isDigit then
      match rest with
      | d5 :: rest5 =>
        if d5.isDigit then
          if boundaryAt rest5 then some 6 else none
        else if !isWordChar d5 then some 5
        else none
      | [] => some 5
    else none
  | _ => none

/-- `re.search` scan for the recipe-code pattern with a leading `\b`:
`prev` records whether the previous character was a word character. -/
def searchCode : Bool → List Char → Option (List Char)
  | _, [] => none
  | prev, c :: rest =>
    match if prev then none else matchCodeAt (c :: rest) with
    | some n => some ((c :: rest).take n)
    | none => searchCode (isWordChar c) rest

/-- `re.search(r'\b([RLY]\d{4,5}|[A-Z]\d{4,5})\b', frag)` returning the
matched token. -/
def findRecipeCode (s : String) : Option String :=
  (searchCode false s.toList).map String.mk

/-- Worker for the token-deleting `re.sub`: the fuel argument (instantiated
with the input length, an upper bound on the number of steps, since each
step consumes at least one character) only makes the recursion structural. -/
def removeTokenGo (tok : List Char) : Nat → Bool → List Char → List Char
  | 0, _, l => l
  | _ + 1, _, [] => []
  | fuel + 1, prev, c :: rest =>
    if !prev && tok ≠ [] && tok.isPrefixOf (c :: rest) && boundaryAt ((c :: rest).drop tok.length) then
      removeTokenGo tok fuel true ((c :: rest).drop tok.length)
    else c :: removeTokenGo tok fuel (isWordChar c) rest

/-- `re.sub(r'\b' + re.escape(rid) + r'\b', '', frag)`: delete every
word-boundary-delimited occurrence of the token (the token is a letter
followed by digits, so both of its ends are word characters). -/
def removeToken (tok : List Char) (l : List Char) : List Char :=
  removeTokenGo tok l.length false l

/-- A maximal whitespace run, accumulated in reverse: length at least two
is replaced by one space, a single whitespace character stays as itself. -/
def emitRun (pend : List Char) : List Char :=
  match pend with
  | [] => []
  | [w] => [w]
  | _ => [' ']

/-- Worker for `re.sub(r'\s{2,}', ' ', name)`: `pend` holds the current
whitespace run (reversed). -/
def collapseGo : List Char → List Char → List Char
  | pend, [] => emitRun pend
  | pend, c :: rest =>
    if isPySpace c then collapseGo (c :: pend) rest
    else emitRun pend ++ c :: collapseGo [] rest

/-- `re.sub(r'\s{2,}', ' ', name)`: collapse each maximal whitespace run of
length at least two into a single space (a lone whitespace char stays). -/
def collapseWS (l : List Char) : List Char := collapseGo [] l

/-- The character set of `.strip(" -–—\t ")` in `_extract_name_recipe`. -/
def dashStripSet : List Char := [' ', '-', '–', '—', '\t']

/-- `_extract_name_recipe` from `parse_pdfs.py`. -/
def extractNameRecipe (fragment : String) : String × Option String :=
  let frag := pyStrip fragment
  let rid := findRecipeCode frag
  let name :=
    match rid with
    | some r => String.mk (stripSet dashStripSet (removeToken r.toList frag.toList))
    | none => frag
  let name := pyStrip (String.mk (collapseWS name.toList))
  (name, rid)

/-- Alternatives of the section-header regex
`^(MEAL|WEEK|STARCHES|HOT VEGETABLES|LEAN PROTEINS|SHORT ORDER|NON-STARCHY|STARCHY)\b`. -/
def HEADER_ALTS : List String :=
  ["MEAL", "WEEK", "STARCHES", "HOT VEGETABLES", "LEAN PROTEINS",
   "SHORT ORDER", "NON-STARCHY", "STARCHY"]

/-- `re.match` of the section-header pattern with `re.I`: some alternative
is a case-insensitive prefix of the line followed by a word boundary. -/
def headerMatch (ln : String) : Bool :=
  HEADER_ALTS.any (fun alt =>
    alt.toList.isPrefixOf (pyUpper ln).toList &&
      boundaryAt ((pyUpper ln).toList.drop alt.toList.length))

def isAsciiLetter (c : Char) : Bool :=
  ('A' ≤ c && c ≤ 'Z') || ('a' ≤ c && c ≤ 'z')

/-- A parsed food item: the `{"Item": ..., "RecipeId": ...}` dictionaries of
`parse_pdfs.py` / `build_sharepoint_payload.py`. -/
structure Item where
  item : String
  recipeId : Option String
deriving DecidableEq, Repr

/-- First-occurrence deduplication of items by `(Item, RecipeId)`, as in the
tails of `parse_outside_menu_text` and `parse_production_schedule_text`. -/
def dedupItems : List (String × Option String) → List Item → List Item
  | _, [] => []
  | seen, it :: rest =>
    if (it.item, it.recipeId) ∈ seen then dedupItems seen rest
    else it :: dedupItems ((it.item, it.recipeId) :: seen) rest

/-- The per-line candidate filter of `parse_outside_menu_text`. -/
def parseOutsideLine (raw : String) : Option Item :=
  let ln := pyStrip raw
  if ln = "" || shouldExclude ln then none
  else if headerMatch ln then none
  else if ln.toList.any isAsciiLetter then
    let nr := extractNameRecipe ln
    if (pyWords nr.1).length < 2 && nr.2 = none then none
    else some ⟨nr.1, nr.2⟩
  else none

/-- `parse_outside_menu_text` from `parse_pdfs.py`. -/
def parse_outside_menu_text (text : String) : List Item :=
  dedupItems [] ((splitLines text).filterMap parseOutsideLine)

/-! ## Nutrient records (`_safe_default` and the seven target fields) -/

/-- The seven-field nutrient record of `usda_client.py`
(`Calories, Protein_g, Carbs_g, Fat_g, Fiber_g, Sodium_mg, Sugar_g`);
`none` means "unknown". -/
structure NutrientRecord where
  calories : Option ℚ
  protein_g : Option ℚ
  carbs_g : Option ℚ
  fat_g : Option ℚ
  fiber_g : Option ℚ
  sodium_mg : Option ℚ
  sugar_g : Option ℚ
deriving DecidableEq, Repr

/-- Field names of the record, in the order of `NUTR_FIELDS`. -/
inductive NutrField
  | calories | protein | carbs | fat | fiber | sodium | sugar
deriving DecidableEq, Repr

/-- `NUTR_FIELDS` order from `build_sharepoint_payload.py` (also the key
order of the dict literals in `usda_client.py`). -/
def NutrField.all : List NutrField :=
  [.calories, .protein, .carbs, .fat, .fiber, .sodium, .sugar]

/-- Column-name string of each field. -/
def NutrField.colName : NutrField → String
  | .calories => "Calories"
  | .protein => "Protein_g"
  | .carbs => "Carbs_g"
  | .fat => "Fat_g"
  | .fiber => "Fiber_g"
  | .sodium => "Sodium_mg"
  | .sugar => "Sugar_g"

/-- `NUTRIENT_IDS` of `usda_client.py`: the fixed FoodData Central
nutrient-type identifier of each field. -/
def nutrientId : NutrField → Int
  | .calories => 1008
  | .protein => 1003
  | .carbs => 1005
  | .fat => 1004
  | .fiber => 1079
  | .sodium => 1093
  | .sugar => 2000

def NutrientRecord.get (r : NutrientRecord) : NutrField → Option ℚ
  | .calories => r.calories
  | .protein => r.protein_g
  | .carbs => r.carbs_g
  | .fat => r.fat_g
  | .fiber => r.fiber_g
  | .sodium => r.sodium_mg
  | .sugar => r.sugar_g

def NutrientRecord.set (r : NutrientRecord) : NutrField → Option ℚ → NutrientRecord
  | .calories, v => { r with calories := v }
  | .protein, v => { r with protein_g := v }
  | .carbs, v => { r with carbs_g := v }
  | .fat, v => { r with fat_g := v }
  | .fiber, v => { r with fiber_g := v }
  | .sodium, v => { r with sodium_mg := v }
  | .sugar, v => { r with sugar_g := v }

/-- `_safe_default()` from `usda_client.py`: the all-unknown record. -/
def safeDefault : NutrientRecord := ⟨none, none, none, none, none, none, none⟩

/-! ## `menu_builder/usda_client.py` — JSON food records and `extract_nutrients` -/

/-- The `nutrient` sub-dict of a `foodNutrients` entry: `id` and `number`
keys, each possibly absent/None. -/
structure NutrInfo where
  id : Option Int
  number : Option String
deriving DecidableEq, Repr

/-- One entry of a food record's `foodNutrients` list. -/
structure FoodNutrient where
  nutrient : Option NutrInfo
  amount : Option ℚ
deriving DecidableEq, Repr

/-- A food JSON record; `foodNutrients := none` covers both an absent key
and an explicit `None`/empty list (`.get("foodNutrients", []) or []`). -/
structure FoodJson where
  foodNutrients : Option (List FoodNutrient)
deriving DecidableEq, Repr

/-- A Python dict key as produced by
`n.get("nutrient", {}).get("id") or n.get("nutrient", {}).get("number")`:
an integer id, a string number, or `None`. -/
inductive DictKey
  | intKey (i : Int)
  | strKey (s : String)
  | noneKey
deriving DecidableEq, Repr

/-- The right operand of the `or`: the entry's `number` field as a key
(`None` maps to the `None` key; Python `or` returns it unexamined). -/
def numberKey (e : FoodNutrient) : DictKey :=
  match e.nutrient.bind NutrInfo.number with
  | some s => .strKey s
  | none => .noneKey

/-- The dict key an entry is stored under in `by_id`
(`id or number`: a truthy — non-`None`, nonzero — id wins). -/
def effKey (e : FoodNutrient) : DictKey :=
  match e.nutrient.bind NutrInfo.id with
  | some i => if i = 0 then numberKey e else .intKey i
  | none => numberKey e

/-- The `by_id` dict of `extract_nutrients`, built by the assignment loop
(last entry with a key wins). -/
def buildById (entries : List FoodNutrient) : DictKey → Option FoodNutrient :=
  entries.foldl (fun d e => fun k => if k = effKey e then some e else d k) (fun _ => none)

/-- The inner `val(nid)` of `extract_nutrients`: `amount` of the entry
stored under the integer key, `None` when absent (an entry stored under an
integer key carries a nonzero `id`, hence is a non-empty dict, so the
`if not n` test is exactly the `None` test here). -/
def valById (d : DictKey → Option FoodNutrient) (nid : Int) : Option ℚ :=
  match d (.intKey nid) with
  | none => none
  | some e => e.amount

/-- The `foodNutrients` entry list a record contributes
(`[]` for a falsy record or a missing/None list). -/
def entriesOf (food_json : Option FoodJson) : List FoodNutrient :=
  match food_json with
  | none => []
  | some fj => fj.foodNutrients.getD []

/-- `extract_nutrients` from `usda_client.py` (`none` models the falsy
`food_json` caught by the leading `if not food_json`). -/
def extract_nutrients (food_json : Option FoodJson) : NutrientRecord :=
  match food_json with
  | none => safeDefault
  | some fj =>
    let by_id := buildById (fj.foodNutrients.getD [])
    { calories := valById by_id 1008
      protein_g := valById by_id 1003
      carbs_g := valById by_id 1005
      fat_g := valById by_id 1004
      fiber_g := valById by_id 1079
      sodium_mg := valById by_id 1093
      sugar_g := valById by_id 2000 }

/-! ## `menu_builder/usda_client.py` — remote search/fetch

The HTTP layer is an oracle giving one response per `(query, dataType)`
pair; `netErr` models a `requests.RequestException` raised by the call
itself, `status` an HTTP response (where `raise_for_status` turns a 4xx
into the same caught exception). -/

/-- A search hit, of which only `fdcId` (possibly absent) is consumed. -/
structure Hit where
  fdcId : Option Int
deriving DecidableEq, Repr

inductive SearchResp
  | netErr
  | status (code : Nat) (foods : List Hit)
deriving DecidableEq, Repr

/-- A server-fault response (`status_code >= 500`). -/
def SearchResp.isServerFault : SearchResp → Bool
  | .status c _ => 500 ≤ c
  | .netErr => false

/-- A response carrying no usable hits: a server fault, or a success whose
`foods` list is empty. -/
def SearchResp.noHits : SearchResp → Bool
  | .status c foods => 500 ≤ c || (c < 400 && foods.isEmpty)
  | .netErr => false

/-- The data-type loop of `_search`: a server fault `continue`s to the next
data type, a raised exception (network error or `raise_for_status` on 4xx)
is caught outside the loop and yields `[]`, and the first non-empty
`foods` is returned. -/
def searchGo (oracle : String → String → SearchResp) (query : String) :
    List String → List Hit
  | [] => []
  | dt :: rest =>
    match oracle query dt with
    | .netErr => []
    | .status code foods =>
      if 500 ≤ code then searchGo oracle query rest
      else if 400 ≤ code then []
      else if foods.isEmpty then searchGo oracle query rest
      else foods

/-- `_search` from `usda_client.py`; `hasKey` is the `_assert_key()` test
on the `USDA_API_KEY` environment variable (page size is forwarded to the
remote and folded into the oracle). -/
def clientSearch (hasKey : Bool) (oracle : String → String → SearchResp)
    (query : String) (data_types : List String) : List Hit :=
  if hasKey then searchGo oracle query data_types else []

/-- `DATA_TYPE_PRIORITY` from `usda_client.py`. -/
def DATA_TYPE_PRIORITY : List (List String) :=
  [["Foundation", "SR Legacy"], ["Branded"], ["Survey (FNDDS)"]]

/-- The bucket loop of `search_foods_priority`, generalized over the
bucket list. -/
def searchBuckets (hasKey : Bool) (oracle : String → String → SearchResp)
    (query : String) : List (List String) → List Hit
  | [] => []
  | bucket :: rest =>
    let hits := clientSearch hasKey oracle query bucket
    if hits.isEmpty then searchBuckets hasKey oracle query rest else hits

/-- `search_foods_priority` from `usda_client.py`. -/
def search_foods_priority (hasKey : Bool) (oracle : String → String → SearchResp)
    (query : String) : List Hit :=
  searchBuckets hasKey oracle query DATA_TYPE_PRIORITY

inductive FetchResp
  | netErr
  | status (code : Nat) (body : FoodJson)
deriving DecidableEq, Repr

/-- `get_food` from `usda_client.py` (5xx and raised exceptions — network
errors and 4xx via `raise_for_status` — all yield `None`). -/
def get_food (hasKey : Bool) (fOracle : Option Int → FetchResp)
    (fdc_id : Option Int) : Option FoodJson :=
  if hasKey then
    match fOracle fdc_id with
    | .netErr => none
    | .status code body =>
      if 500 ≤ code then none
      else if 400 ≤ code then none
      else some body
  else none

/-- `best_match` from `usda_client.py` (`hits[0] if hits else None`). -/
def best_match (hasKey : Bool) (sOracle : String → String → SearchResp)
    (query : String) : Option Hit :=
  (search_foods_priority hasKey sOracle query).head?

/-- `lookup_nutrition` from `usda_client.py`. -/
def lookup_nutrition (hasKey : Bool) (sOracle : String → String → SearchResp)
    (fOracle : Option Int → FetchResp) (query : String) : NutrientRecord :=
  match best_match hasKey sOracle query with
  | none => safeDefault
  | some hit =>
    match get_food hasKey fOracle hit.fdcId with
    | none => safeDefault
    | some food => extract_nutrients (some food)

/-! ## `menu_builder/build_sharepoint_payload.py` -/

/-- `normalize_item`: `" ".join(name.strip().split())`. -/
def normalize_item (name : String) : String :=
  String.intercalate " " (pyWords (pyStrip name))

/-- `rid or ""` — the recipe-id part of the dedup key. -/
def ridOrEmpty (rid : Option String) : String := rid.getD ""

/-- The loop of `merge_items`, with the `seen` key set accumulated. -/
def mergeGo : List (String × String) → List Item → List Item
  | _, [] => []
  | seen, d :: rest =>
    let nm := normalize_item d.item
    let key := (nm, ridOrEmpty d.recipeId)
    if nm ≠ "" ∧ key ∉ seen then
      ⟨nm, d.recipeId⟩ :: mergeGo (key :: seen) rest
    else mergeGo seen rest

/-- `merge_items` from `build_sharepoint_payload.py`: production-schedule
entries (`recipe_items`) are consumed first. -/
def merge_items (menu_items recipe_items : List Item) : List Item :=
  mergeGo [] (recipe_items ++ menu_items)

/-- A row of the optional `recipe_nutrition` table, indexed by `Item`:
`vals` maps a present column name to its cell (`none` = NaN/None cell,
column absent from the list = column absent from the frame).  Item labels
are assumed unique (pandas `.loc` scalar indexing). -/
structure RecipeRow where
  item : String
  vals : List (String × Option ℚ)
deriving DecidableEq, Repr

/-- The `rix` guard of `build_table`: `None`, or empty, or no `Item`
column (structurally excluded here) all disable the table. -/
def tableIndex (t : Option (List RecipeRow)) : Option (List RecipeRow) :=
  match t with
  | none => none
  | some rows => if rows.isEmpty then none else some rows

/-- `item in rix.index` / `rix.loc[item]` on a uniquely-labelled index. -/
def findRow (rows : List RecipeRow) (item : String) : Option RecipeRow :=
  rows.find? (fun r => r.item = item)

/-- Column lookup in a recipe row's dict (`k in rec` plus the cell). -/
def assocGet (l : List (String × Option ℚ)) (k : String) : Option (Option ℚ) :=
  (l.find? (fun p => p.1 = k)).map Prod.snd

/-- The recipe-copy loop of `build_table`:
`if k in rec and pd.notna(rec[k]): rec_vals[k] = float(rec[k])`. -/
def applyRecipe (rec : RecipeRow) : NutrientRecord :=
  NutrField.all.foldl
    (fun vals k =>
      match assocGet rec.vals k.colName with
      | some (some v) => vals.set k (some v)
      | _ => vals)
    safeDefault

/-- `source = "Mixed" if source == "Recipe" else "USDA"`. -/
def sourceToggle (source : String) : String :=
  if source = "Recipe" then "Mixed" else "USDA"

/-- One step of `build_table`'s USDA fill loop over `NUTR_FIELDS`. -/
def usdaFillStep (usda : NutrientRecord) (acc : NutrientRecord × String)
    (k : NutrField) : NutrientRecord × String :=
  if acc.1.get k = none ∧ (usda.get k).isSome then
    (acc.1.set k (usda.get k), sourceToggle acc.2)
  else acc

/-- The per-item body of `build_table`'s loop.  `lookupFn` stands for
`lookup_nutrition`; the second component records the queries sent to it
(one per call).  Returns `((rec_vals, source), queries)`. -/
def resolveItem (rix : Option (List RecipeRow)) (lookupFn : String → NutrientRecord)
    (it : Item) : (NutrientRecord × String) × List String :=
  let recOpt := rix.bind (fun rows => findRow rows it.item)
  let start : NutrientRecord × String :=
    match recOpt with
    | some rec => (applyRecipe rec, "Recipe")
    | none => (safeDefault, "USDA")
  if NutrField.all.any (fun k => (start.1.get k).isNone) then
    (NutrField.all.foldl (usdaFillStep (lookupFn it.item)) start, [it.item])
  else (start, [])

/-- A row of the output table of `build_table`. -/
structure MenuRow where
  menuDate : String
  meal : String
  item : String
  vals : NutrientRecord
  source : String
  recipeId : Option String
deriving DecidableEq, Repr

/-- `build_table` from `build_sharepoint_payload.py`, also returning the
list of `lookup_nutrition` queries it issues (in order). -/
def build_table (date_str meal : String) (items : List Item)
    (recipe_nutrition : Option (List RecipeRow))
    (lookupFn : String → NutrientRecord) : List MenuRow × List String :=
  let rix := tableIndex recipe_nutrition
  let resolved := items.map (fun it => (it, resolveItem rix lookupFn it))
  (resolved.map (fun p =>
      { menuDate := date_str, meal := meal, item := p.1.item,
        vals := p.2.1.1, source := p.2.1.2, recipeId := p.1.recipeId }),
   (resolved.map (fun p => p.2.2)).flatten)

/-! ## `fill_usda_nutrients.py`

The spreadsheet loop of `main()`.  A cell is `None`, NaN, a string, or a
number; the item cell is taken after the `str(...)` coercion the script
applies.  `search_food` and `fetch_food` are the remote boundary and are
modelled as oracles (their internal bucket logic mirrors the
`usda_client` embedding above); the loop emits an event trace recording
each remote search, each detail fetch, and each `time.sleep`. -/

/-- A spreadsheet cell. -/
inductive Cell
  | pyNone
  | nan
  | str (s : String)
  | num (q : ℚ)
deriving DecidableEq, Repr

/-- `is_missing` from `fill_usda_nutrients.py`. -/
def is_missing : Cell → Bool
  | .pyNone => true
  | .nan => true
  | .str s => pyStrip s = ""
  | .num _ => false

/-- The three target columns, in the key order of the `TARGETS` dict. -/
inductive TargetCol
  | fiber | sodium | sugar
deriving DecidableEq, Repr

def TargetCol.all : List TargetCol := [.fiber, .sodium, .sugar]

/-- Column name of each target (`TARGETS` keys). -/
def TargetCol.colName : TargetCol → String
  | .fiber => "Fiber_g"
  | .sodium => "Sodium_mg"
  | .sugar => "Sugar_g"

/-- `TARGETS` values: nutrient id of each target column. -/
def TargetCol.nid : TargetCol → Int
  | .fiber => 1079
  | .sodium => 1093
  | .sugar => 2000

/-- The `by_id` dict of `extract_targets`: keyed by the raw
`nutrient.id` (entries whose id is `None` are skipped; no `number`
fallback and no truthiness test here, unlike `usda_client`). -/
def buildByIdFill (entries : List FoodNutrient) : Int → Option FoodNutrient :=
  entries.foldl
    (fun d e =>
      match e.nutrient.bind NutrInfo.id with
      | some i => fun k => if k = i then some e else d k
      | none => d)
    (fun _ => none)

/-- `extract_targets` from `fill_usda_nutrients.py`, as a map from target
column to its (possibly unknown) value. -/
def extract_targets (food_json : Option FoodJson) (col : TargetCol) : Option ℚ :=
  match food_json with
  | none => none
  | some fj =>
    match buildByIdFill (fj.foodNutrients.getD []) col.nid with
    | some e => e.amount
    | none => none

/-- A spreadsheet row: the item cell (after `str(...)`), and all other
cells by column name (target columns that were absent from the sheet are
initialised to `None` by `main`, i.e. `Cell.pyNone` here). -/
structure FillRow where
  item : String
  cells : String → Cell

/-- Events of one run of the fill loop, in order. -/
inductive FillEvent
  | search (query : String)
  | fetch (fdcId : Option Int)
  | sleep
deriving DecidableEq, Repr

/-- The cache of `main`: normalized item name to per-column values. -/
def FillCache := List (String × (TargetCol → Option ℚ))

/-- Dict membership/lookup on the cache. -/
def cacheGet (cache : FillCache) (k : String) : Option (TargetCol → Option ℚ) :=
  (cache.find? (fun p => p.1 = k)).map Prod.snd

/-- The `need_cols` list of a row: target columns whose cell is missing. -/
def needCols (row : FillRow) : List TargetCol :=
  TargetCol.all.filter (fun c => is_missing (row.cells c.colName))

/-- The cache-miss branch of `main`'s loop: on a miss, one `search_food`
call, and on a hit one `fetch_food` call, the cache store, and the
`time.sleep`; a no-hit miss stores the all-unknown record with no sleep. -/
def lookupStep (searchO : String → Option Hit) (fetchO : Option Int → Option FoodJson)
    (cache : FillCache) (name key : String) : FillCache × List FillEvent :=
  if (cacheGet cache key).isSome then (cache, [])
  else
    match searchO name with
    | none => ((key, fun _ => none) :: cache, [.search name])
    | some hit =>
      ((key, extract_targets (fetchO hit.fdcId)) :: cache,
       [.search name, .fetch hit.fdcId, .sleep])

/-- One write of `main`'s write-back loop:
`if cache[key].get(col) is not None: df.at[idx, col] = val`. -/
def writeStep (recVals : TargetCol → Option ℚ) (cells : String → Cell)
    (c : TargetCol) : String → Cell :=
  match recVals c with
  | some v => fun colName => if colName = c.colName then .num v else cells colName
  | none => cells

/-- The write-back loop of `main`: `for col in need_cols: ...`. -/
def fillCells (recVals : TargetCol → Option ℚ) (row : FillRow) : FillRow :=
  { row with cells := (needCols row).foldl (writeStep recVals) row.cells }

/-- One iteration of the row loop of `main`: returns the updated row, the
updated cache, and the emitted events.  `searchO` models `search_food`
(first hit or `None`), `fetchO` models `fetch_food` by `fdcId`. -/
def processRow (searchO : String → Option Hit) (fetchO : Option Int → Option FoodJson)
    (cache : FillCache) (row : FillRow) : FillRow × FillCache × List FillEvent :=
  let name := pyStrip row.item
  if name = "" then (row, cache, [])
  else if (needCols row).isEmpty then (row, cache, [])
  else
    let key := pyLower name
    let step := lookupStep searchO fetchO cache name key
    (fillCells ((cacheGet step.1 key).getD (fun _ => none)) row, step.1, step.2)

/-- The row loop of `main`, threading the cache. -/
def fillLoop (searchO : String → Option Hit) (fetchO : Option Int → Option FoodJson) :
    FillCache → List FillRow → List FillRow × List FillEvent
  | _, [] => ([], [])
  | cache, row :: rest =>
    let p := processRow searchO fetchO cache row
    let q := fillLoop searchO fetchO p.2.1 rest
    (p.1 :: q.1, p.2.2 ++ q.2)

/-- The whole row loop of `main`, starting from the empty cache. -/
def fillMainRows (searchO : String → Option Hit) (fetchO : Option Int → Option FoodJson)
    (rows : List FillRow) : List FillRow × List FillEvent :=
  fillLoop searchO fetchO [] rows

/-- Outcome of running `main` of `fill_usda_nutrients.py`. -/
inductive FillOutcome
  | exited (code : Nat)
  | completed (rows : List FillRow) (events : List FillEvent)

/-- `main` of `fill_usda_nutrients.py` down to the row loop: the API key
comes from the environment (`None` when unset; the empty string is equally
falsy), `readExcel` is the outcome of `pd.read_excel` on the input file.
The key test precedes the read, so a falsy key exits with code 1 whatever
the read would return. -/
def fill_main (api_key : Option String) (readExcel : Except String (List FillRow))
    (searchO : String → Option Hit) (fetchO : Option Int → Option FoodJson) :
    FillOutcome :=
  if api_key.getD "" = "" then .exited 1
  else
    match readExcel with
    | .error _ => .exited 1
    | .ok rows =>
      let p := fillMainRows searchO fetchO rows
      .completed p.1 p.2

/-- The search queries of an event trace. -/
def searchQueries (evs : List FillEvent) : List String :=
  evs.filterMap (fun e =>
    match e with
    | .search q => some q
    | _ => none)

/-- The cache key a row contributes if (and only if) it reaches the cache
lookup: non-empty stripped name and at least one missing target cell. -/
def rowKey (row : FillRow) : Option String :=
  if pyStrip row.item = "" then none
  else if (needCols row).isEmpty then none
  else some (pyLower (pyStrip row.item))

/-- First-occurrence deduplication, skipping keys already seen. -/
def dedupSkip : List String → List String → List String
  | _, [] => []
  | seen, k :: rest =>
    if k ∈ seen then dedupSkip seen rest
    else k :: dedupSkip (k :: seen) rest

/-! ## Specification-side definitions used by the theorems -/

/-- The entry a Python dict lookup on `by_id` yields: the last list entry
stored under the key. -/
def lastEntryWith (k : DictKey) (l : List FoodNutrient) : Option FoodNutrient :=
  (l.filter (fun e => effKey e = k)).getLast?

/-- Number of fields `build_table`'s USDA loop fills: fields unknown in
`vals` for which the remote record has a value. -/
def fillCount (usda vals : NutrientRecord) (fs : List NutrField) : Nat :=
  (fs.filter (fun k => vals.get k = none ∧ (usda.get k).isSome)).length

/-- Modelled from the amended claim for C2: provenance is `"Recipe"` iff
the item is found in the recipe table and no field is filled from the
remote record, `"Mixed"` iff it is found and exactly one field is filled
from the remote record, and `"USDA"` otherwise. -/
def expectedSource (rix : Option (List RecipeRow)) (lookupFn : String → NutrientRecord)
    (it : Item) : String :=
  match rix.bind (fun rows => findRow rows it.item) with
  | none => "USDA"
  | some rec =>
    if NutrField.all.any (fun k => ((applyRecipe rec).get k).isNone) then
      match fillCount (lookupFn it.item) (applyRecipe rec) NutrField.all with
      | 0 => "Recipe"
      | 1 => "Mixed"
      | _ + 2 => "USDA"
    else "Recipe"

/-- Well-formedness of a fill-loop trace: it is a concatenation of blocks
`[search]` (no-hit cache miss) and `[search, fetch, sleep]` (cache miss
with a hit) — so a sleep happens exactly after each fetch, and never
otherwise. -/
def wfTrace : List FillEvent → Bool
  | [] => true
  | [.search _] => true
  | .search _ :: .fetch _ :: .sleep :: r => wfTrace r
  | .search _ :: rest@(.search _ :: _) => wfTrace rest
  | _ => false

/-- The frame relation of C9 between an input row and its output row: the
item cell is untouched, and any changed cell is a target column that was
missing in the input and now holds a number. -/
def writeOK (r r2 : FillRow) : Prop :=
  r2.item = r.item ∧ ∀ col : String,
    r2.cells col = r.cells col ∨
      ∃ c : TargetCol, col = c.colName ∧ is_missing (r.cells col) = true ∧
        ∃ q : ℚ, r2.cells col = Cell.num q

/-! ## Helper lemmas -/

/-- A server fault carries no usable hits. -/
theorem noHits_of_isServerFault (r : SearchResp) (h : r.isServerFault = true) :
    r.noHits = true := by
  cases r with
  | netErr => simp [SearchResp.isServerFault] at h
  | status code foods =>
    simp only [SearchResp.isServerFault, decide_eq_true_eq] at h
    simp [SearchResp.noHits, h]

/-- If every data type of the list answers with a fault or an empty hit
list, the `_search` loop falls through them all and returns `[]`. -/
theorem searchGo_of_noHits (oracle : String → String → SearchResp) (query : String)
    (dts : List String) (h : ∀ dt ∈ dts, (oracle query dt).noHits = true) :
    searchGo oracle query dts = [] := by
  induction dts with
  | nil => rfl
  | cons dt rest ih =>
    have hdt := h dt (List.mem_cons_self ..)
    have hrest : ∀ d ∈ rest, (oracle query d).noHits = true :=
      fun d hd => h d (List.mem_cons_of_mem _ hd)
    cases hresp : oracle query dt with
    | netErr => rw [hresp] at hdt; simp [SearchResp.noHits] at hdt
    | status code foods =>
      rw [hresp] at hdt
      simp only [SearchResp.noHits, Bool.or_eq_true, Bool.and_eq_true,
        decide_eq_true_eq] at hdt
      simp only [searchGo, hresp]
      rcases hdt with h5 | ⟨h4, hempty⟩
      · simp [h5, ih hrest]
      · have hn5 : ¬ 500 ≤ code := by omega
        have hn4 : ¬ 400 ≤ code := by omega
        simp [hn5, hn4, hempty, ih hrest]

/-- If every data type of every bucket answers with a fault or an empty
hit list, the whole priority search returns `[]`. -/
theorem searchBuckets_of_noHits (hasKey : Bool) (oracle : String → String → SearchResp)
    (query : String) (bs : List (List String))
    (h : ∀ bucket ∈ bs, ∀ dt ∈ bucket, (oracle query dt).noHits = true) :
    searchBuckets hasKey oracle query bs = [] := by
  induction bs with
  | nil => rfl
  | cons bucket rest ih =>
    have hb := h bucket (List.mem_cons_self ..)
    have hrest : ∀ b ∈ rest, ∀ dt ∈ b, (oracle query dt).noHits = true :=
      fun b hbr => h b (List.mem_cons_of_mem _ hbr)
    simp only [searchBuckets, clientSearch]
    cases hasKey with
    | false => simpa using ih hrest
    | true => simp [searchGo_of_noHits oracle query bucket hb, ih hrest]

/-- Without an API key, every priority search returns `[]`. -/
theorem searchBuckets_noKey (oracle : String → String → SearchResp) (query : String)
    (bs : List (List String)) : searchBuckets false oracle query bs = [] := by
  induction bs with
  | nil => rfl
  | cons bucket rest ih => simp [searchBuckets, clientSearch, ih]

/-! ## Claim theorems -/

/-- **C6** — `parse_outside_menu_text` on the line
`"Roasted Garbanzo Beans R20330"` yields the single item
`("Roasted Garbanzo Beans", R20330)`, and the line `"BEVERAGES"` is
dropped by the exclusion-keyword filter. -/
theorem C6_parse_line_examples :
    parse_outside_menu_text "Roasted Garbanzo Beans R20330" =
      [⟨"Roasted Garbanzo Beans", some "R20330"⟩] ∧
    parse_outside_menu_text "BEVERAGES" = [] := by
  exact ⟨by decide, by decide⟩

/-- **C4** — a server-fault answer for each data type of the
Foundation/SR-Legacy bucket makes the priority search fall through to the
Branded bucket and then Survey (FNDDS); and if every bucket faults or
returns no hits, `lookup_nutrition` returns the all-unknown record (no
exception escapes: the embedded client is total). -/
theorem C4_server_fault_fallthrough :
    (∀ (hasKey : Bool) (sOracle : String → String → SearchResp) (q : String),
      (∀ dt ∈ ["Foundation", "SR Legacy"], (sOracle q dt).isServerFault = true) →
      search_foods_priority hasKey sOracle q =
        searchBuckets hasKey sOracle q [["Branded"], ["Survey (FNDDS)"]]) ∧
    (∀ (hasKey : Bool) (sOracle : String → String → SearchResp)
      (fOracle : Option Int → FetchResp) (q : String),
      (∀ bucket ∈ DATA_TYPE_PRIORITY, ∀ dt ∈ bucket, (sOracle q dt).noHits = true) →
      lookup_nutrition hasKey sOracle fOracle q = safeDefault) := by
  constructor
  · intro hasKey sOracle q h
    have hfault : ∀ dt ∈ ["Foundation", "SR Legacy"], (sOracle q dt).noHits = true :=
      fun dt hdt => noHits_of_isServerFault _ (h dt hdt)
    simp only [search_foods_priority, DATA_TYPE_PRIORITY, searchBuckets, clientSearch]
    cases hasKey with
    | false => simp
    | true => simp [searchGo_of_noHits sOracle q _ hfault]
  · intro hasKey sOracle fOracle q h
    have hempty : searchBuckets hasKey sOracle q DATA_TYPE_PRIORITY = [] :=
      searchBuckets_of_noHits hasKey sOracle q _ h
    simp [lookup_nutrition, best_match, search_foods_priority, hempty]

/-- Witness for C4: a concrete oracle answering 503 everywhere exercises
both conjuncts. -/
theorem C4_server_fault_fallthrough_witness :
    ((∀ dt ∈ ["Foundation", "SR Legacy"],
        ((fun (_ : String) (_ : String) => SearchResp.status 503 []) "beans" dt).isServerFault = true) ∧
      search_foods_priority true (fun _ _ => SearchResp.status 503 []) "beans" =
        searchBuckets true (fun _ _ => SearchResp.status 503 []) "beans"
          [["Branded"], ["Survey (FNDDS)"]]) ∧
    ((∀ bucket ∈ DATA_TYPE_PRIORITY, ∀ dt ∈ bucket,
        ((fun (_ : String) (_ : String) => SearchResp.status 503 []) "beans" dt).noHits = true) ∧
      lookup_nutrition true (fun _ _ => SearchResp.status 503 []) (fun _ => FetchResp.netErr)
        "beans" = safeDefault) :=
  ⟨⟨by decide, C4_server_fault_fallthrough.1 true (fun _ _ => SearchResp.status 503 []) "beans"
      (by decide)⟩,
   ⟨by decide, C4_server_fault_fallthrough.2 true (fun _ _ => SearchResp.status 503 [])
      (fun _ => FetchResp.netErr) "beans" (by decide)⟩⟩

/-- **C5** — with the API key absent every remote lookup degrades to the
all-unknown record and `build_table` still produces one row per item,
while `fill_usda_nutrients.main` exits with code 1 whatever reading the
input file would have produced (the key test precedes the read). -/
theorem C5_missing_key :
    (∀ (sOracle : String → String → SearchResp) (fOracle : Option Int → FetchResp)
      (q : String), lookup_nutrition false sOracle fOracle q = safeDefault) ∧
    (∀ (key : Option String), key.getD "" = "" →
      ∀ (readExcel : Except String (List FillRow)) (sO : String → Option Hit)
        (fO : Option Int → Option FoodJson),
        fill_main key readExcel sO fO = .exited 1) ∧
    (∀ (d m : String) (items : List Item) (tbl : Option (List RecipeRow))
      (sOracle : String → String → SearchResp) (fOracle : Option Int → FetchResp),
      (build_table d m items tbl (lookup_nutrition false sOracle fOracle)).1.length =
        items.length) := by
  refine ⟨?_, ?_, ?_⟩
  · intro sOracle fOracle q
    simp [lookup_nutrition, best_match, search_foods_priority, searchBuckets_noKey]
  · intro key hkey readExcel sO fO
    simp [fill_main, hkey]
  · intro d m items tbl sOracle fOracle
    simp [build_table]

/-- Witness for C5: the unset key (`None`) exits with code 1 even when the
read would have succeeded, and a lookup without the key is all-unknown. -/
theorem C5_missing_key_witness :
    ((none : Option String).getD "" = "" ∧
      fill_main none (.ok []) (fun _ => none) (fun _ => none) = .exited 1) ∧
    lookup_nutrition false (fun _ _ => SearchResp.status 200 [⟨some 1⟩])
      (fun _ => FetchResp.netErr) "rice" = safeDefault :=
  ⟨⟨rfl, C5_missing_key.2.1 none rfl (.ok []) (fun _ => none) (fun _ => none)⟩,
   C5_missing_key.1 (fun _ _ => SearchResp.status 200 [⟨some 1⟩]) (fun _ => FetchResp.netErr)
     "rice"⟩

theorem get_set_self (r : NutrientRecord) (k : NutrField) (v : Option ℚ) :
    (r.set k v).get k = v := by
  cases k <;> rfl

theorem get_set_ne (r : NutrientRecord) (k k2 : NutrField) (v : Option ℚ) (h : k2 ≠ k) :
    (r.set k v).get k2 = r.get k2 := by
  cases k <;> cases k2 <;> first | rfl | exact absurd rfl h

theorem sourceToggle_usda (n : Nat) : sourceToggle^[n] "USDA" = "USDA" := by
  induction n with
  | zero => rfl
  | succ n ih => rw [Function.iterate_succ_apply, show sourceToggle "USDA" = "USDA" from rfl, ih]

theorem sourceToggle_recipe_two (n : Nat) : sourceToggle^[n + 2] "Recipe" = "USDA" := by
  show sourceToggle^[n + 1 + 1] "Recipe" = "USDA"
  rw [Function.iterate_succ_apply, show sourceToggle "Recipe" = "Mixed" from rfl,
    Function.iterate_succ_apply, show sourceToggle "Mixed" = "USDA" from rfl,
    sourceToggle_usda]

/-- The source tag after `build_table`'s USDA loop is the toggle iterated
once per filled field. -/
theorem usdaFill_source (usda : NutrientRecord) :
    ∀ (fs : List NutrField), fs.Nodup → ∀ (vals : NutrientRecord) (src : String),
    (fs.foldl (usdaFillStep usda) (vals, src)).2 =
      sourceToggle^[fillCount usda vals fs] src := by
  intro fs
  induction fs with
  | nil => intro _ vals src; rfl
  | cons k rest ih =>
    intro hnd vals src
    have hk : k ∉ rest := (List.nodup_cons.mp hnd).1
    have hnd2 := (List.nodup_cons.mp hnd).2
    simp only [List.foldl_cons]
    by_cases hc : vals.get k = none ∧ (usda.get k).isSome
    · have hstep : usdaFillStep usda (vals, src) k = (vals.set k (usda.get k), sourceToggle src) := by
        simp [usdaFillStep, hc]
      rw [hstep, ih hnd2]
      have hcount : fillCount usda (vals.set k (usda.get k)) rest = fillCount usda vals rest := by
        unfold fillCount
        congr 1
        apply List.filter_congr
        intro x hx
        have hne : x ≠ k := fun he => hk (he ▸ hx)
        rw [get_set_ne _ _ _ _ hne]
      rw [hcount]
      have hsucc : fillCount usda vals (k :: rest) = fillCount usda vals rest + 1 := by
        unfold fillCount
        rw [List.filter_cons_of_pos (by simpa using hc), List.length_cons]
      rw [hsucc, Function.iterate_succ_apply]
    · have hstep : usdaFillStep usda (vals, src) k = (vals, src) := by
        simp [usdaFillStep, hc]
      rw [hstep, ih hnd2]
      have hsame : fillCount usda vals (k :: rest) = fillCount usda vals rest := by
        unfold fillCount
        rw [List.filter_cons_of_neg (by simpa using hc)]
      rw [hsame]

/-- Per-item provenance of `build_table` equals the amended-claim tag. -/
theorem resolveItem_source (rix : Option (List RecipeRow))
    (lookupFn : String → NutrientRecord) (it : Item) :
    (resolveItem rix lookupFn it).1.2 = expectedSource rix lookupFn it := by
  unfold resolveItem expectedSource
  cases hfind : rix.bind (fun rows => findRow rows it.item) with
  | none =>
    have hany : NutrField.all.any (fun k => (safeDefault.get k).isNone) = true := by decide
    simp only [hany, if_true]
    rw [usdaFill_source _ _ (by decide), sourceToggle_usda]
  | some rec =>
    by_cases hany : NutrField.all.any (fun k => ((applyRecipe rec).get k).isNone) = true
    · simp only [hany, if_true]
      rw [usdaFill_source _ _ (by decide)]
      rcases hn : fillCount (lookupFn it.item) (applyRecipe rec) NutrField.all with _ | _ | n
      · rfl
      · rfl
      · exact sourceToggle_recipe_two n
    · simp only [Bool.not_eq_true] at hany
      simp only [hany, Bool.false_eq_true, if_false]

/-- **C2 (amended)** — for every run of `build_table`, the provenance tag
of each row is `"Recipe"` iff the item is in the recipe table and no field
is filled from the remote lookup, `"Mixed"` iff it is in the table and
exactly one field is filled from the remote lookup, and `"USDA"`
otherwise (in particular, two or more remote-filled fields give `"USDA"`
even when the table also supplied fields). -/
theorem C2_amended_provenance (d m : String) (items : List Item)
    (tbl : Option (List RecipeRow)) (lookupFn : String → NutrientRecord) :
    (build_table d m items tbl lookupFn).1.map MenuRow.source =
      items.map (expectedSource (tableIndex tbl) lookupFn) := by
  simp only [build_table, List.map_map]
  apply List.map_congr_left
  intro it _
  exact resolveItem_source (tableIndex tbl) lookupFn it

/-- **C2 (counterexample)** — the recipe table supplies `Calories`, the
remote lookup supplies `Protein_g` and `Carbs_g`; both sources contributed
a resolved field, yet the row's provenance is `"USDA"` (not `"Mixed"`),
and a local-table field is present in a `"USDA"`-tagged row. -/
theorem C2_counterexample :
    ((build_table "2025-08-19" "Breakfast" [⟨"Oats", none⟩]
        (some [⟨"Oats", [("Calories", some 100)]⟩])
        (fun _ => { safeDefault with protein_g := some 5, carbs_g := some 10 })).1.map
      (fun r => (r.source, r.vals.calories, r.vals.protein_g, r.vals.carbs_g))) =
    [("USDA", some 100, some 5, some 10)] := by decide

theorem ridOrEmpty_eq_of_ne (rid : Option String) (s : String) (h : ridOrEmpty rid = s)
    (hs : s ≠ "") : rid = some s := by
  cases rid with
  | none => exact absurd ((rfl : ridOrEmpty none = "") ▸ h).symm hs
  | some t => exact congrArg some h

/-- An element of the merged list whose normalized name is non-empty and
whose key is unseen contributes an output entry with its name and its
recipe-id key. -/
theorem mergeGo_keeps (r : Item) :
    ∀ (l : List Item) (seen : List (String × String)),
    r ∈ l → normalize_item r.item ≠ "" →
    (normalize_item r.item, ridOrEmpty r.recipeId) ∉ seen →
    ∃ e ∈ mergeGo seen l, e.item = normalize_item r.item ∧
      ridOrEmpty e.recipeId = ridOrEmpty r.recipeId := by
  intro l
  induction l with
  | nil => intro seen h; exact absurd h (List.not_mem_nil r)
  | cons d rest ih =>
    intro seen hmem hnm hkey
    by_cases hcond : normalize_item d.item ≠ "" ∧
        (normalize_item d.item, ridOrEmpty d.recipeId) ∉ seen
    · rcases List.mem_cons.mp hmem with heq | hrest
      · subst heq
        refine ⟨⟨normalize_item r.item, r.recipeId⟩, ?_, rfl, rfl⟩
        simp only [mergeGo, if_pos hcond]
        exact List.mem_cons_self ..
      · by_cases hsame : (normalize_item d.item, ridOrEmpty d.recipeId) =
            (normalize_item r.item, ridOrEmpty r.recipeId)
        · refine ⟨⟨normalize_item d.item, d.recipeId⟩, ?_, ?_, ?_⟩
          · simp only [mergeGo, if_pos hcond]
            exact List.mem_cons_self ..
          · exact congrArg Prod.fst hsame
          · exact congrArg Prod.snd hsame
        · have hkey2 : (normalize_item r.item, ridOrEmpty r.recipeId) ∉
              ((normalize_item d.item, ridOrEmpty d.recipeId) :: seen) := by
            intro hm
            rcases List.mem_cons.mp hm with h1 | h2
            · exact hsame h1.symm
            · exact hkey h2
          obtain ⟨e, he, h1, h2⟩ := ih ((normalize_item d.item, ridOrEmpty d.recipeId) :: seen)
            hrest hnm hkey2
          refine ⟨e, ?_, h1, h2⟩
          simp only [mergeGo, if_pos hcond]
          exact List.mem_cons_of_mem _ he
    · have hrest : r ∈ rest := by
        rcases List.mem_cons.mp hmem with heq | h
        · exact absurd (heq ▸ ⟨hnm, hkey⟩) hcond
        · exact h
      obtain ⟨e, he, h1, h2⟩ := ih seen hrest hnm hkey
      refine ⟨e, ?_, h1, h2⟩
      simp only [mergeGo, if_neg hcond]
      exact he

/-- **C3** — when a name occurs in both input lists with different recipe
ids, the merged output keeps an entry with the primary (production
schedule, `recipe_items`) list's recipe id for that name; the concrete
conjunct shows the primary entry also comes first (the secondary entry,
having a different dedup key, is retained after it). -/
theorem C3_merge_prefers_primary :
    (∀ (menu_items recipe_items : List Item) (r : Item) (s : String),
      r ∈ recipe_items → r.recipeId = some s → s ≠ "" → normalize_item r.item ≠ "" →
      ∃ e ∈ merge_items menu_items recipe_items,
        e.item = normalize_item r.item ∧ e.recipeId = some s) ∧
    merge_items [⟨"Rice", some "R11111"⟩] [⟨"Rice", some "R22222"⟩] =
      [⟨"Rice", some "R22222"⟩, ⟨"Rice", some "R11111"⟩] := by
  constructor
  · intro menu recipe r s hmem hrid hs hnm
    obtain ⟨e, he, h1, h2⟩ := mergeGo_keeps r (recipe ++ menu) []
      (List.mem_append_left _ hmem) hnm (List.not_mem_nil _)
    refine ⟨e, he, h1, ?_⟩
    rw [hrid] at h2
    exact ridOrEmpty_eq_of_ne _ s h2 hs
  · decide

/-- Witness for C3 at concrete inputs with a name shared by both lists
under different recipe ids. -/
theorem C3_merge_prefers_primary_witness :
    ((⟨"Rice", some "R22222"⟩ : Item) ∈ [(⟨"Rice", some "R22222"⟩ : Item)] ∧
      ("R22222" : String) ≠ "" ∧ normalize_item "Rice" ≠ "") ∧
    ∃ e ∈ merge_items [⟨"Rice", some "R11111"⟩] [⟨"Rice", some "R22222"⟩],
      e.item = normalize_item "Rice" ∧ e.recipeId = some "R22222" :=
  ⟨⟨by decide, by decide, by decide⟩,
   C3_merge_prefers_primary.1 [⟨"Rice", some "R11111"⟩] [⟨"Rice", some "R22222"⟩]
     ⟨"Rice", some "R22222"⟩ "R22222" (by decide) rfl (by decide) (by decide)⟩

/-- The dict built by the `by_id` loop answers with the last entry stored
under the key. -/
theorem buildById_eq_last (l : List FoodNutrient) (k : DictKey) :
    buildById l k = lastEntryWith k l := by
  induction l using List.reverseRecOn with
  | nil => rfl
  | append_singleton l e ih =>
    simp only [buildById, List.foldl_append, List.foldl_cons, List.foldl_nil] at *
    simp only [lastEntryWith, List.filter_append] at *
    by_cases h : k = effKey e
    · simp [h, List.filter_cons, List.getLast?_concat]
    · have h2 : effKey e ≠ k := fun he => h he.symm
      have hfe : List.filter (fun x => decide (effKey x = k)) [e] = [] := by simp [h2]
      rw [hfe, List.append_nil, if_neg h]
      exact ih

/-- The field projection of `extract_nutrients` is the `val` lookup at the
field's fixed nutrient id. -/
theorem extract_get (fj : FoodJson) (fld : NutrField) :
    (extract_nutrients (some fj)).get fld =
      valById (buildById (fj.foodNutrients.getD [])) (nutrientId fld) := by
  cases fld <;> rfl

/-- **C7** — `extract_nutrients` resolves each of the seven fields by its
fixed nutrient-type identifier against the record's nutrient-entry list:
a field whose identifier is keyed by no entry is unknown (`none`); a field
whose identifier is keyed is the amount of the (last) entry stored under
it; and the function is total on all record shapes — a falsy record and a
missing/empty entry list both give the all-unknown record. -/
theorem C7_extract_by_fixed_id :
    (∀ (food : Option FoodJson) (fld : NutrField),
      (∀ e ∈ entriesOf food, effKey e ≠ .intKey (nutrientId fld)) →
      (extract_nutrients food).get fld = none) ∧
    (∀ (food : Option FoodJson) (fld : NutrField) (e : FoodNutrient),
      lastEntryWith (.intKey (nutrientId fld)) (entriesOf food) = some e →
      (extract_nutrients food).get fld = e.amount) ∧
    (extract_nutrients none = safeDefault ∧
      ∀ fld : NutrField, (extract_nutrients (some ⟨none⟩)).get fld = none) := by
  refine ⟨?_, ?_, rfl, ?_⟩
  · intro food fld h
    cases food with
    | none => cases fld <;> rfl
    | some fj =>
      rw [extract_get]
      have hfilter : (fj.foodNutrients.getD []).filter
          (fun e => effKey e = DictKey.intKey (nutrientId fld)) = [] := by
        rw [List.filter_eq_nil_iff]
        intro e he
        simpa using h e he
      unfold valById
      rw [buildById_eq_last]
      unfold lastEntryWith
      rw [hfilter]
      rfl
  · intro food fld e h
    cases food with
    | none =>
      exact absurd h (by simp [lastEntryWith, entriesOf])
    | some fj =>
      rw [extract_get]
      unfold valById
      rw [buildById_eq_last]
      have : lastEntryWith (DictKey.intKey (nutrientId fld)) (fj.foodNutrients.getD []) =
          some e := h
      rw [this]
  · intro fld
    cases fld <;> rfl

/-- Witness for C7: a record whose only entry is keyed under id 9999
leaves the fiber field unknown. -/
theorem C7_extract_by_fixed_id_witness :
    (∀ e ∈ entriesOf (some ⟨some [⟨some ⟨some 9999, none⟩, some 1⟩]⟩),
      effKey e ≠ .intKey (nutrientId .fiber)) ∧
    (extract_nutrients (some ⟨some [⟨some ⟨some 9999, none⟩, some 1⟩]⟩)).get .fiber = none :=
  ⟨by decide,
   C7_extract_by_fixed_id.1 (some ⟨some [⟨some ⟨some 9999, none⟩, some 1⟩]⟩) .fiber (by decide)⟩

/-- **C1 (counterexample)** — `build_table` has no lookup cache: an item
list in which the same (already normalized) name appears twice with
different recipe ids — exactly what `merge_items` produces for a name
colliding under different recipe ids — triggers two remote lookups for
the one unique name, with no recipe table at all. -/
theorem C1_no_cache_counterexample :
    (build_table "2025-08-19" "Lunch" [⟨"Rice", some "R10001"⟩, ⟨"Rice", some "R10002"⟩]
      none (fun _ => safeDefault)).2 = ["Rice", "Rice"] := by decide

/-! ### Fill-loop lemmas -/

theorem fillLoop_cons (sO : String → Option Hit) (fO : Option Int → Option FoodJson)
    (cache : FillCache) (row : FillRow) (rest : List FillRow) :
    fillLoop sO fO cache (row :: rest) =
      ((processRow sO fO cache row).1 ::
          (fillLoop sO fO (processRow sO fO cache row).2.1 rest).1,
        (processRow sO fO cache row).2.2 ++
          (fillLoop sO fO (processRow sO fO cache row).2.1 rest).2) := rfl

theorem processRow_of_skip (sO : String → Option Hit) (fO : Option Int → Option FoodJson)
    (cache : FillCache) (row : FillRow)
    (h : pyStrip row.item = "" ∨ (needCols row).isEmpty = true) :
    processRow sO fO cache row = (row, cache, []) := by
  by_cases h1 : pyStrip row.item = ""
  · simp [processRow, h1]
  · rcases h with h | h
    · exact absurd h h1
    · simp [processRow, h1, h]

theorem processRow_of_lookup (sO : String → Option Hit) (fO : Option Int → Option FoodJson)
    (cache : FillCache) (row : FillRow)
    (h1 : ¬ pyStrip row.item = "") (h2 : ¬ (needCols row).isEmpty = true) :
    processRow sO fO cache row =
      (fillCells
          ((cacheGet (lookupStep sO fO cache (pyStrip row.item) (pyLower (pyStrip row.item))).1
            (pyLower (pyStrip row.item))).getD (fun _ => none)) row,
        (lookupStep sO fO cache (pyStrip row.item) (pyLower (pyStrip row.item))).1,
        (lookupStep sO fO cache (pyStrip row.item) (pyLower (pyStrip row.item))).2) := by
  simp [processRow, h1, h2]

theorem lookupStep_hit (sO : String → Option Hit) (fO : Option Int → Option FoodJson)
    (cache : FillCache) (name key : String) (h : (cacheGet cache key).isSome = true) :
    lookupStep sO fO cache name key = (cache, []) := by
  simp [lookupStep, h]

theorem lookupStep_miss_none (sO : String → Option Hit) (fO : Option Int → Option FoodJson)
    (cache : FillCache) (name key : String) (h : ¬ (cacheGet cache key).isSome = true)
    (hs : sO name = none) :
    lookupStep sO fO cache name key = ((key, fun _ => none) :: cache, [.search name]) := by
  simp [lookupStep, h, hs]

theorem lookupStep_miss_hit (sO : String → Option Hit) (fO : Option Int → Option FoodJson)
    (cache : FillCache) (name key : String) (hit : Hit)
    (h : ¬ (cacheGet cache key).isSome = true) (hs : sO name = some hit) :
    lookupStep sO fO cache name key =
      ((key, extract_targets (fO hit.fdcId)) :: cache,
        [.search name, .fetch hit.fdcId, .sleep]) := by
  simp [lookupStep, h, hs]

theorem cacheGet_cons (p : String × (TargetCol → Option ℚ)) (rest : FillCache) (k : String) :
    cacheGet (p :: rest) k = if p.1 = k then some p.2 else cacheGet rest k := by
  by_cases h : p.1 = k <;> simp [cacheGet, List.find?_cons, h]

theorem cacheGet_isSome_iff (cache : FillCache) (k : String) :
    (cacheGet cache k).isSome = true ↔ k ∈ cache.map Prod.fst := by
  induction cache with
  | nil => simp [cacheGet]
  | cons p rest ih =>
    rw [cacheGet_cons]
    by_cases h : p.1 = k
    · simp [h]
    · simp only [if_neg h, List.map_cons, List.mem_cons, ih]
      constructor
      · exact Or.inr
      · rintro (hk | hk)
        · exact absurd hk.symm h
        · exact hk

theorem searchQueries_append (a b : List FillEvent) :
    searchQueries (a ++ b) = searchQueries a ++ searchQueries b :=
  List.filterMap_append ..

theorem rowKey_none (row : FillRow)
    (h : pyStrip row.item = "" ∨ (needCols row).isEmpty = true) :
    rowKey row = none := by
  by_cases h1 : pyStrip row.item = ""
  · simp [rowKey, h1]
  · rcases h with h | h
    · exact absurd h h1
    · simp [rowKey, h1, h]

theorem rowKey_some (row : FillRow)
    (h1 : ¬ pyStrip row.item = "") (h2 : ¬ (needCols row).isEmpty = true) :
    rowKey row = some (pyLower (pyStrip row.item)) := by
  simp [rowKey, h1, h2]

theorem dedupSkip_cons (seen : List String) (k : String) (rest : List String) :
    dedupSkip seen (k :: rest) =
      if k ∈ seen then dedupSkip seen rest else k :: dedupSkip (k :: seen) rest := rfl

/-- The lowered search queries of the row loop are the first occurrences
of the rows' cache keys, skipping keys already cached. -/
theorem fillLoop_searchKeys (sO : String → Option Hit) (fO : Option Int → Option FoodJson) :
    ∀ (rows : List FillRow) (cache : FillCache),
    (searchQueries (fillLoop sO fO cache rows).2).map pyLower =
      dedupSkip (cache.map Prod.fst) (rows.filterMap rowKey) := by
  intro rows
  induction rows with
  | nil => intro cache; rfl
  | cons row rest ih =>
    intro cache
    rw [fillLoop_cons]
    by_cases h1 : pyStrip row.item = ""
    · rw [processRow_of_skip sO fO cache row (Or.inl h1)]
      simp only [List.filterMap_cons, rowKey_none row (Or.inl h1)]
      simpa using ih cache
    · by_cases h2 : (needCols row).isEmpty
      · rw [processRow_of_skip sO fO cache row (Or.inr h2)]
        simp only [List.filterMap_cons, rowKey_none row (Or.inr h2)]
        simpa using ih cache
      · rw [processRow_of_lookup sO fO cache row h1 h2]
        simp only [List.filterMap_cons, rowKey_some row h1 h2]
        rw [dedupSkip_cons]
        by_cases h3 : (cacheGet cache (pyLower (pyStrip row.item))).isSome
        · rw [lookupStep_hit sO fO cache _ _ h3]
          rw [if_pos ((cacheGet_isSome_iff cache _).mp h3)]
          simpa using ih cache
        · rw [if_neg (fun hmem => h3 ((cacheGet_isSome_iff cache _).mpr hmem))]
          cases hs : sO (pyStrip row.item) with
          | none =>
            rw [lookupStep_miss_none sO fO cache _ _ h3 hs]
            simp only [searchQueries_append, List.map_append]
            have hh := ih ((pyLower (pyStrip row.item), fun _ => none) :: cache)
            simp only [List.map_cons] at hh
            rw [hh]
            rfl
          | some hit =>
            rw [lookupStep_miss_hit sO fO cache _ _ hit h3 hs]
            simp only [searchQueries_append, List.map_append]
            have hh := ih ((pyLower (pyStrip row.item),
              extract_targets (fO hit.fdcId)) :: cache)
            simp only [List.map_cons] at hh
            rw [hh]
            rfl

/-- `dedupSkip` produces a duplicate-free list avoiding the seen keys. -/
theorem dedupSkip_nodup :
    ∀ (l seen : List String), (dedupSkip seen l).Nodup ∧ ∀ k ∈ dedupSkip seen l, k ∉ seen := by
  intro l
  induction l with
  | nil => intro seen; exact ⟨List.nodup_nil, by intro k hk; simp [dedupSkip] at hk⟩
  | cons k rest ih =>
    intro seen
    rw [dedupSkip_cons]
    by_cases h : k ∈ seen
    · rw [if_pos h]; exact ih seen
    · rw [if_neg h]
      refine ⟨List.nodup_cons.mpr ⟨?_, (ih (k :: seen)).1⟩, ?_⟩
      · intro hk
        exact (ih (k :: seen)).2 k hk (List.mem_cons_self ..)
      · intro x hx
        rcases List.mem_cons.mp hx with rfl | hx2
        · exact h
        · intro hxseen
          exact (ih (k :: seen)).2 x hx2 (List.mem_cons_of_mem _ hxseen)

theorem flatten_map_singleton (l : List Item) :
    (l.map (fun it => [it.item])).flatten = l.map Item.item := by
  induction l with
  | nil => rfl
  | cons a t iht => simp [iht]

/-- **C1 (amended)** — only `fill_usda_nutrients.main` caches remote
lookups: there, at most one remote search occurs per unique normalized
(stripped, lowercased) item name over the whole run; `build_table`, by
contrast, issues one `lookup_nutrition` call per item with an unresolved
field — with no recipe table, exactly one per item row — so duplicate
names across rows or meals trigger repeated remote lookups there. -/
theorem C1_amended_cache :
    (∀ (sO : String → Option Hit) (fO : Option Int → Option FoodJson) (rows : List FillRow),
      ((searchQueries (fillMainRows sO fO rows).2).map pyLower).Nodup) ∧
    (∀ (d m : String) (items : List Item) (lookupFn : String → NutrientRecord),
      (build_table d m items none lookupFn).2 = items.map Item.item) := by
  constructor
  · intro sO fO rows
    have h := fillLoop_searchKeys sO fO rows []
    simp only [fillMainRows]
    rw [h]
    exact (dedupSkip_nodup _ _).1
  · intro d m items lookupFn
    have hres : ∀ it : Item, (resolveItem none lookupFn it).2 = [it.item] := by
      intro it
      have hcond : (NutrField.all.any fun k => ((safeDefault : NutrientRecord).get k).isNone) = true := by
        decide
      simp [resolveItem, hcond]
    simp only [build_table, tableIndex, List.map_map]
    have hmap : items.map ((fun p => p.2.2) ∘ fun it => (it, resolveItem none lookupFn it)) =
        items.map (fun it => [it.item]) := by
      apply List.map_congr_left
      intro it _
      exact hres it
    rw [hmap]
    exact flatten_map_singleton items

/-- **C10** — the lookup cache of `fill_usda_nutrients.main` is keyed by
the stripped, lowercased item name: the searches issued are exactly the
first occurrences of the distinct keys of rows that reach the lookup, so
rows whose names agree up to letter case share one search (second
conjunct: one search, both rows filled from the same cached record),
while names differing in internal whitespace are looked up separately
(third conjunct: two searches). -/
theorem C10_cache_key :
    (∀ (sO : String → Option Hit) (fO : Option Int → Option FoodJson) (rows : List FillRow),
      (searchQueries (fillMainRows sO fO rows).2).map pyLower =
        dedupSkip [] (rows.filterMap rowKey)) ∧
    ((fillMainRows (fun _ => some ⟨some 42⟩)
        (fun _ => some ⟨some [⟨some ⟨some 1079, none⟩, some 3⟩]⟩)
        [⟨"GREEN BEANS", fun _ => .pyNone⟩, ⟨"green beans", fun _ => .pyNone⟩]).2 =
      [.search "GREEN BEANS", .fetch (some 42), .sleep] ∧
      ((fillMainRows (fun _ => some ⟨some 42⟩)
        (fun _ => some ⟨some [⟨some ⟨some 1079, none⟩, some 3⟩]⟩)
        [⟨"GREEN BEANS", fun _ => .pyNone⟩, ⟨"green beans", fun _ => .pyNone⟩]).1.map
        (fun r => r.cells "Fiber_g")) = [.num 3, .num 3]) ∧
    (fillMainRows (fun _ => none) (fun _ => none)
        [⟨"Green  Beans", fun _ => .pyNone⟩, ⟨"Green Beans", fun _ => .pyNone⟩]).2 =
      [.search "Green  Beans", .search "Green Beans"] := by
  refine ⟨?_, ⟨by decide, by decide⟩, by decide⟩
  intro sO fO rows
  have h := fillLoop_searchKeys sO fO rows []
  simpa [fillMainRows] using h

/-! ### Trace well-formedness (C8) and frame property (C9) -/

/-- Prepending a per-row event block (empty, search-only, or
search-fetch-sleep) preserves trace well-formedness. -/
theorem wfTrace_append_block (b : List FillEvent) (hb : wfTrace b = true) :
    ∀ (a : List FillEvent),
      (a = [] ∨ (∃ n, a = [.search n]) ∨ ∃ n i, a = [.search n, .fetch i, .sleep]) →
      wfTrace (a ++ b) = true := by
  intro a ha
  rcases ha with rfl | ⟨n, rfl⟩ | ⟨n, i, rfl⟩
  · exact hb
  · cases b with
    | nil => simp [wfTrace]
    | cons e t =>
      cases e with
      | search q => simpa [wfTrace] using hb
      | fetch j => simp [wfTrace] at hb
      | sleep => simp [wfTrace] at hb
  · simpa [wfTrace] using hb

/-- The events emitted for one row form one of the three blocks. -/
theorem processRow_events (sO : String → Option Hit) (fO : Option Int → Option FoodJson)
    (cache : FillCache) (row : FillRow) :
    (processRow sO fO cache row).2.2 = [] ∨
    (∃ n, (processRow sO fO cache row).2.2 = [.search n]) ∨
    ∃ n i, (processRow sO fO cache row).2.2 = [.search n, .fetch i, .sleep] := by
  by_cases h1 : pyStrip row.item = ""
  · rw [processRow_of_skip sO fO cache row (Or.inl h1)]
    exact Or.inl rfl
  · by_cases h2 : (needCols row).isEmpty
    · rw [processRow_of_skip sO fO cache row (Or.inr h2)]
      exact Or.inl rfl
    · rw [processRow_of_lookup sO fO cache row h1 h2]
      by_cases h3 : (cacheGet cache (pyLower (pyStrip row.item))).isSome
      · rw [lookupStep_hit sO fO cache _ _ h3]
        exact Or.inl rfl
      · cases hs : sO (pyStrip row.item) with
        | none =>
          rw [lookupStep_miss_none sO fO cache _ _ h3 hs]
          exact Or.inr (Or.inl ⟨_, rfl⟩)
        | some hit =>
          rw [lookupStep_miss_hit sO fO cache _ _ hit h3 hs]
          exact Or.inr (Or.inr ⟨_, _, rfl⟩)

theorem fillLoop_wfTrace (sO : String → Option Hit) (fO : Option Int → Option FoodJson) :
    ∀ (rows : List FillRow) (cache : FillCache),
      wfTrace (fillLoop sO fO cache rows).2 = true := by
  intro rows
  induction rows with
  | nil => intro cache; simp [fillLoop, wfTrace]
  | cons row rest ih =>
    intro cache
    rw [fillLoop_cons]
    exact wfTrace_append_block _ (ih _) _ (processRow_events sO fO cache row)

/-- **C8 (amended)** — in `fill_usda_nutrients.main` the fixed delay is
performed exactly after those cache-miss lookups whose search returned a
hit (each trace block is `search` alone, for a no-hit miss, or
`search, fetch, sleep`): no delay follows a no-hit cache miss and none
follows a cache hit (hits emit no events at all); `build_table` performs
no delay anywhere (its embedding has no sleep event). -/
theorem C8_amended_delay (sO : String → Option Hit) (fO : Option Int → Option FoodJson)
    (rows : List FillRow) : wfTrace (fillMainRows sO fO rows).2 = true :=
  fillLoop_wfTrace sO fO rows []

/-- **C8 (counterexample)** — a cache-miss remote lookup whose search
returns no hit performs no delay: the run's whole trace is the one search
event, with no sleep, refuting "a fixed delay is performed after each
cache-miss remote lookup (including lookups whose search returned no
hit)". -/
theorem C8_no_sleep_counterexample :
    (fillMainRows (fun _ => none) (fun _ => none)
      [⟨"Mystery Stew", fun _ => .pyNone⟩]).2 = [.search "Mystery Stew"] := by decide

/-- Invariant of the write-back loop: a cell is either untouched or a
missing target cell overwritten with a number. -/
theorem writeStep_inv (recVals : TargetCol → Option ℚ) (row : FillRow) :
    ∀ (cols : List TargetCol), (∀ c ∈ cols, is_missing (row.cells c.colName) = true) →
    ∀ (cells0 : String → Cell),
    (∀ col, cells0 col = row.cells col ∨
      ∃ c : TargetCol, col = c.colName ∧ is_missing (row.cells col) = true ∧
        ∃ q : ℚ, cells0 col = Cell.num q) →
    ∀ col, (cols.foldl (writeStep recVals) cells0) col = row.cells col ∨
      ∃ c : TargetCol, col = c.colName ∧ is_missing (row.cells col) = true ∧
        ∃ q : ℚ, (cols.foldl (writeStep recVals) cells0) col = Cell.num q := by
  intro cols
  induction cols with
  | nil => intro _ cells0 h0 col; exact h0 col
  | cons c rest ih =>
    intro hm cells0 h0 col
    simp only [List.foldl_cons]
    apply ih (fun c2 hc2 => hm c2 (List.mem_cons_of_mem _ hc2))
    intro col2
    cases hr : recVals c with
    | none =>
      simp only [writeStep, hr]
      exact h0 col2
    | some v =>
      simp only [writeStep, hr]
      by_cases hcol : col2 = c.colName
      · subst hcol
        exact Or.inr ⟨c, rfl, hm c (List.mem_cons_self ..), v, by rw [if_pos rfl]⟩
      · rw [if_neg hcol]
        exact h0 col2

theorem fillCells_writeOK (recVals : TargetCol → Option ℚ) (row : FillRow) :
    writeOK row (fillCells recVals row) := by
  refine ⟨rfl, ?_⟩
  intro col
  have hm : ∀ c ∈ needCols row, is_missing (row.cells c.colName) = true := by
    intro c hc
    exact (List.mem_filter.mp hc).2
  exact writeStep_inv recVals row (needCols row) hm row.cells (fun _ => Or.inl rfl) col

theorem processRow_writeOK (sO : String → Option Hit) (fO : Option Int → Option FoodJson)
    (cache : FillCache) (row : FillRow) :
    writeOK row (processRow sO fO cache row).1 := by
  by_cases h1 : pyStrip row.item = ""
  · rw [processRow_of_skip sO fO cache row (Or.inl h1)]
    exact ⟨rfl, fun _ => Or.inl rfl⟩
  · by_cases h2 : (needCols row).isEmpty
    · rw [processRow_of_skip sO fO cache row (Or.inr h2)]
      exact ⟨rfl, fun _ => Or.inl rfl⟩
    · rw [processRow_of_lookup sO fO cache row h1 h2]
      exact fillCells_writeOK _ row

theorem fillLoop_frame (sO : String → Option Hit) (fO : Option Int → Option FoodJson) :
    ∀ (rows : List FillRow) (cache : FillCache),
      List.Forall₂ writeOK rows (fillLoop sO fO cache rows).1 := by
  intro rows
  induction rows with
  | nil => intro cache; exact List.Forall₂.nil
  | cons row rest ih =>
    intro cache
    rw [fillLoop_cons]
    exact List.Forall₂.cons (processRow_writeOK sO fO cache row) (ih _)

/-- **C9** — the row loop of `fill_usda_nutrients.main` only ever writes
target-column cells that were missing (each written cell becomes a
number), and leaves the item cell, every non-missing target cell, and
every cell of every other column unchanged. -/
theorem C9_only_missing_targets_written (sO : String → Option Hit)
    (fO : Option Int → Option FoodJson) (rows : List FillRow) :
    List.Forall₂ writeOK rows (fillMainRows sO fO rows).1 :=
  fillLoop_frame sO fO rows []

end MenuData
